import Mathlib

/-!
Verification development for the slagg repository (a multi-team Slack
aggregator CLI).  The JavaScript sources under src/ are shallowly embedded
as Lean definitions: pure functions become Lean functions, the mutable
per-team client state becomes an explicit `ClientState` record with a step
function, fallible operations return `Except`.  External JS builtins
(regex compilation, `parseFloat`, the Slack web API) are modelled as
explicit oracles or restricted executable parsers, as noted at each
definition.
-/

namespace Slagg

/-! ### JS string helpers

`toLowerJs` models `String.prototype.toLowerCase` (ASCII case folding,
which covers every pattern the code compares against).  `containsSub`
models `String.prototype.includes`: substring containment. -/

def toLowerJs (s : String) : String :=
  String.mk (s.data.map Char.toLower)

/-- Does the list `l` start with the list `p`? (models matching at one position) -/
def startsWithList : List Char → List Char → Bool
  | _, [] => true
  | [], _ :: _ => false
  | c :: cs, p :: ps => c == p && startsWithList cs ps

/-- Substring containment on character lists, models `String.prototype.includes`. -/
def containsList : List Char → List Char → Bool
  | l, p => if startsWithList l p then true else
      match l with
      | [] => false
      | _ :: cs => containsList cs p

def containsSub (s pat : String) : Bool :=
  containsList s.data pat.data

/-! ### Errors thrown by the transport / web API

A JavaScript `Error` value as observed by the client code: a `message`
(possibly absent), an optional `code` property and an optional numeric
`status` property. -/

structure JsError where
  message : Option String
  code : Option String
  status : Option Int
deriving DecidableEq, Repr

/-- The lowercased message used throughout `SlackClient`:
`error.message?.toLowerCase() || ''`. -/
def errMessageLower (e : JsError) : String :=
  match e.message with
  | none => ""
  | some m => toLowerJs m

/-- Embedding of `SlackClient._isAuthenticationError` (src/src/team/SlackClient.js). -/
def isAuthenticationError (e : JsError) : Bool :=
  let errorMessage := errMessageLower e
  let authErrorPatterns : List String :=
    ["invalid_auth", "token_revoked", "account_inactive", "invalid_token",
     "not_authed", "token_expired", "unauthorized", "authentication failed",
     "invalid credentials"]
  let hasAuthPattern := authErrorPatterns.any (fun p => containsSub errorMessage p)
  let authErrorCodes : List (Option String) :=
    [some "invalid_auth", some "token_revoked", some "account_inactive"]
  let hasAuthCode := authErrorCodes.contains e.code
  let isUnauthorized := e.status == some 401 || containsSub errorMessage "401"
  hasAuthPattern || hasAuthCode || isUnauthorized

/-! ### Per-team client state machine

`ClientState` carries the mutable fields of `SlackClient` that the
lifecycle claims are about.  The transport session itself is abstract:
`connect` takes the outcome of `socketModeClient.start(); subscribeToChannels()`
as a parameter. -/

structure ClientState where
  isConnected : Bool
  isConnecting : Bool
  isInvalidated : Bool
  reconnectAttempts : Nat
deriving DecidableEq, Repr

/-- Fresh client state as set up by the `SlackClient` constructor. -/
def initialClientState : ClientState :=
  { isConnected := false, isConnecting := false, isInvalidated := false,
    reconnectAttempts := 0 }

/-- `this.maxReconnectAttempts = 5` -/
def maxReconnectAttempts : Nat := 5

/-- `this.reconnectDelay = 1000` (never changed in this version of the code). -/
def reconnectDelayMs : Nat := 1000

/-- `this.maxReconnectDelay = 30000` -/
def maxReconnectDelayMs : Nat := 30000

/-- Embedding of `SlackClient._scheduleReconnect`: returns the delay (ms) of
the timer it sets, or `none` when no reconnect is scheduled. -/
def scheduleReconnect (st : ClientState) : Option Nat :=
  if st.reconnectAttempts ≥ maxReconnectAttempts || st.isInvalidated then
    none
  else
    some (min (reconnectDelayMs * 2 ^ st.reconnectAttempts) maxReconnectDelayMs)

/-- Embedding of `SlackClient._invalidateTeam` (state fields only; the
fire-and-forget transport teardown and cache clearing have no further
observable effect on the modelled fields). -/
def invalidateTeam (st : ClientState) : ClientState :=
  { st with isInvalidated := true, isConnected := false, isConnecting := false }

/-- Outcome of the transport-open + channel-subscription phase inside
`connect()`. -/
inductive ConnectOutcome where
  | success
  | failure (e : JsError)
deriving DecidableEq, Repr

/-- What a lifecycle operation did besides updating the state: the delay of a
newly scheduled reconnect timer (if any), and whether the operation threw. -/
structure StepOut where
  scheduled : Option Nat
  threw : Bool
deriving DecidableEq, Repr

def noOut : StepOut := { scheduled := none, threw := false }

/-- Embedding of `SlackClient.connect` (src/src/team/SlackClient.js, the
version with invalidation).  The guard returns without effect when
connecting, connected or invalidated; otherwise the transport outcome `o`
decides between the success path and the catch block. -/
def connect (st : ClientState) (o : ConnectOutcome) : ClientState × StepOut :=
  if st.isConnecting || st.isConnected || st.isInvalidated then
    (st, noOut)
  else
    match o with
    | .success =>
        ({ st with isConnected := true, isConnecting := false,
                   reconnectAttempts := 0 }, noOut)
    | .failure e =>
        let st1 := { st with isConnecting := false, isConnected := false }
        if isAuthenticationError e then
          (invalidateTeam st1, { scheduled := none, threw := true })
        else
          (st1, { scheduled := scheduleReconnect st1, threw := true })

/-- Embedding of `SlackClient.reconnect`. -/
def reconnect (st : ClientState) (o : ConnectOutcome) : ClientState × StepOut :=
  if st.isConnecting || st.isConnected || st.isInvalidated then
    (st, noOut)
  else if st.reconnectAttempts ≥ maxReconnectAttempts then
    (st, noOut)
  else
    let st1 := { st with reconnectAttempts := st.reconnectAttempts + 1 }
    let (st2, out) := connect st1 o
    -- reconnect() swallows the exception thrown by connect()
    (st2, { out with threw := false })

/-- Embedding of the `socketModeClient.on('error', ...)` listener. -/
def onSocketError (st : ClientState) (e : JsError) : ClientState × StepOut :=
  let st1 := { st with isConnected := false }
  if isAuthenticationError e then
    (invalidateTeam st1, noOut)
  else if !st1.isConnecting then
    (st1, { scheduled := scheduleReconnect st1, threw := false })
  else
    (st1, noOut)

/-- Embedding of the `socketModeClient.on('disconnected', ...)` listener. -/
def onSocketDisconnected (st : ClientState) : ClientState × StepOut :=
  let st1 := { st with isConnected := false }
  if !st1.isConnecting then
    (st1, { scheduled := scheduleReconnect st1, threw := false })
  else
    (st1, noOut)

/-- Embedding of the `socketModeClient.on('connected', ...)` listener. -/
def onSocketConnected (st : ClientState) : ClientState × StepOut :=
  ({ st with isConnected := true, reconnectAttempts := 0 }, noOut)

/-- Embedding of `SlackClient.disconnect` (state fields only). -/
def disconnectOp (st : ClientState) : ClientState × StepOut :=
  ({ st with isConnected := false, isConnecting := false }, noOut)

/-- One lifecycle operation of the client, for stating process-lifetime
("for the remainder of the process") properties. -/
inductive ClientOp where
  | opConnect (o : ConnectOutcome)
  | opReconnect (o : ConnectOutcome)
  | opSocketError (e : JsError)
  | opSocketDisconnected
  | opSocketConnected
  | opDisconnect
deriving DecidableEq, Repr

def stepClient (st : ClientState) : ClientOp → ClientState × StepOut
  | .opConnect o => connect st o
  | .opReconnect o => reconnect st o
  | .opSocketError e => onSocketError st e
  | .opSocketDisconnected => onSocketDisconnected st
  | .opSocketConnected => onSocketConnected st
  | .opDisconnect => disconnectOp st

/-- The auth-error predicate as the claim states it: the message
case-insensitively contains one of the auth patterns, or the code is one of
the three auth codes, or the HTTP status is 401 or the message contains
"401". -/
def claimAuthPredicate (e : JsError) : Prop :=
  (∃ p ∈ ["invalid_auth", "token_revoked", "account_inactive", "invalid_token",
          "not_authed", "token_expired", "unauthorized", "authentication failed",
          "invalid credentials"], containsSub (errMessageLower e) p = true)
  ∨ e.code = some "invalid_auth" ∨ e.code = some "token_revoked"
  ∨ e.code = some "account_inactive"
  ∨ e.status = some 401 ∨ containsSub (errMessageLower e) "401" = true

/-! ### Claims C1 and C9: auth classification, invalidation, backoff -/

theorem claimAuth_implies_code (e : JsError) (he : claimAuthPredicate e) :
    isAuthenticationError e = true := by
  unfold isAuthenticationError
  simp only [Bool.or_eq_true, List.any_eq_true]
  rcases he with ⟨p, hp, hc⟩ | h | h | h | h | h
  · exact Or.inl (Or.inl ⟨p, hp, hc⟩)
  · refine Or.inl (Or.inr ?_)
    rw [h]; decide
  · refine Or.inl (Or.inr ?_)
    rw [h]; decide
  · refine Or.inl (Or.inr ?_)
    rw [h]; decide
  · refine Or.inr (Or.inl ?_)
    rw [h]; decide
  · exact Or.inr (Or.inr h)


/-- C1: any error satisfying the spec's auth predicate (message pattern, code,
or 401 status) is classified as an authentication error; handling it — either
in the `connect()` catch block or in the socket `error` listener — invalidates
the team; and from an invalidated state every lifecycle operation keeps the
state invalidated, never schedules a reconnect, and `connect()`/`reconnect()`
return without effect. -/
theorem auth_error_invalidates_forever (e : JsError) (he : claimAuthPredicate e) :
    isAuthenticationError e = true
    ∧ (∀ st : ClientState, st.isConnecting = false → st.isConnected = false →
        st.isInvalidated = false → (connect st (ConnectOutcome.failure e)).1.isInvalidated = true)
    ∧ (∀ st : ClientState, (onSocketError st e).1.isInvalidated = true)
    ∧ (∀ st : ClientState, st.isInvalidated = true → ∀ op : ClientOp,
        (stepClient st op).1.isInvalidated = true
        ∧ (stepClient st op).2.scheduled = none
        ∧ (∀ o, op = ClientOp.opConnect o → stepClient st op = (st, noOut))
        ∧ (∀ o, op = ClientOp.opReconnect o → stepClient st op = (st, noOut))) := by
  have hauth := claimAuth_implies_code e he
  refine ⟨hauth, ?_, ?_, ?_⟩
  · intro st h1 h2 h3
    simp [connect, h1, h2, h3, hauth, invalidateTeam]
  · intro st
    simp [onSocketError, hauth, invalidateTeam]
  · intro st hinv op
    cases op with
    | opConnect o =>
        simp [stepClient, connect, hinv, noOut]
    | opReconnect o =>
        simp [stepClient, reconnect, hinv, noOut]
    | opSocketError e2 =>
        by_cases h : isAuthenticationError e2 = true
        · simp [stepClient, onSocketError, h, invalidateTeam, hinv, noOut]
        · cases hc : st.isConnecting
          · simp [stepClient, onSocketError, h, hc, hinv, noOut, scheduleReconnect]
          · simp [stepClient, onSocketError, h, hc, hinv, noOut]
    | opSocketDisconnected =>
        cases hc : st.isConnecting
        · simp [stepClient, onSocketDisconnected, hc, hinv, noOut, scheduleReconnect]
        · simp [stepClient, onSocketDisconnected, hc, hinv, noOut]
    | opSocketConnected =>
        simp [stepClient, onSocketConnected, hinv, noOut]
    | opDisconnect =>
        simp [stepClient, disconnectOp, hinv, noOut]

/-- Witness for C1: the revoked-token error with `code = invalid_auth`
satisfies the hypothesis, and a fresh client that fails its connect with it
ends up invalidated. -/
theorem auth_error_invalidates_forever_witness :
    claimAuthPredicate (JsError.mk none (some "invalid_auth") none)
    ∧ (connect initialClientState
        (ConnectOutcome.failure (JsError.mk none (some "invalid_auth") none))).1.isInvalidated
        = true := by
  have he : claimAuthPredicate (JsError.mk none (some "invalid_auth") none) :=
    Or.inr (Or.inl rfl)
  exact ⟨he, (auth_error_invalidates_forever _ he).2.1 initialClientState rfl rfl rfl⟩

/-- C9: for attempt counters 0..4 the scheduled backoff delay is
min(1000·2^n, 30000) milliseconds, and once the counter has reached 5 no
reconnect is scheduled (`_scheduleReconnect` sets no timer and `reconnect()`
returns without effect). -/
theorem backoff_delay_schedule (st : ClientState) (hinv : st.isInvalidated = false) :
    (st.reconnectAttempts ≤ 4 →
      scheduleReconnect st = some (min (1000 * 2 ^ st.reconnectAttempts) 30000))
    ∧ (st.reconnectAttempts ≥ 5 → scheduleReconnect st = none
        ∧ ∀ o, reconnect st o = (st, noOut)) := by
  constructor
  · intro h
    have h5 : ¬ st.reconnectAttempts ≥ maxReconnectAttempts := by
      simp [maxReconnectAttempts]; omega
    simp [scheduleReconnect, h5, hinv, reconnectDelayMs, maxReconnectDelayMs]
  · intro h
    have h5 : st.reconnectAttempts ≥ maxReconnectAttempts := by
      simp [maxReconnectAttempts]; omega
    constructor
    · simp [scheduleReconnect, h5]
    · intro o
      by_cases hg : (st.isConnecting || st.isConnected || st.isInvalidated) = true
      · simp [reconnect, hg]
      · simp [reconnect, hg, h5]

/-- Witness for C9: a live client at attempt 3 schedules an 8-second delay,
and one at attempt 5 schedules nothing. -/
theorem backoff_delay_schedule_witness :
    scheduleReconnect (ClientState.mk false false false 3) = some 8000
    ∧ scheduleReconnect (ClientState.mk false false false 5) = none := by
  constructor
  · have h := (backoff_delay_schedule (ClientState.mk false false false 3) rfl).1
      (by decide)
    simpa using h
  · exact ((backoff_delay_schedule (ClientState.mk false false false 5) rfl).2
      (by decide)).1


/-! ### Claim C2: constructor arity mismatch in `TeamManager._connectTeam`

`_connectTeam` calls `new SlackClient(appToken, botToken, teamName, channelIds)`
— four arguments — while the constructor signature is
`constructor(token, teamName, channelIds)`.  Under JavaScript call semantics
the parameters bind positionally: `token := appToken`,
`teamName := botToken`, `channelIds := teamName` and the fourth argument is
dropped.  `JsVal` captures just the value shapes the constructor inspects. -/

inductive JsVal where
  | str (s : String)
  | strList (xs : List String)
deriving DecidableEq, Repr

/-- JavaScript truthiness of the modelled values ("" is falsy). -/
def jsTruthy : JsVal → Bool
  | .str s => !s.isEmpty
  | .strList _ => true

/-- `typeof v === 'string'` -/
def jsIsString : JsVal → Bool
  | .str _ => true
  | .strList _ => false

/-- `Array.isArray(v)` -/
def jsIsArray : JsVal → Bool
  | .strList _ => true
  | .str _ => false

/-- The fields the `SlackClient` constructor stores on success. -/
structure ClientInit where
  token : String
  teamName : String
  channelIds : List String
deriving DecidableEq, Repr

/-- Reading a modelled JS value as a string (meaningful once
`jsIsString` has been checked). -/
def jsStr : JsVal → String
  | .str s => s
  | .strList _ => ""

/-- Reading a modelled JS value as an array (meaningful once
`jsIsArray` has been checked). -/
def jsList : JsVal → List String
  | .strList xs => xs
  | .str _ => []

/-- The JS `.length` property of the modelled values. -/
def jsLen : JsVal → Nat
  | .strList xs => xs.length
  | .str s => s.length

/-- Embedding of the `SlackClient` constructor (validation part),
src/src/team/SlackClient.js lines 325-351. -/
def slackClientCtor (token teamName channelIds : JsVal) : Except String ClientInit :=
  if !(jsTruthy token) || !(jsIsString token) then
    Except.error "Token is required and must be a string"
  else if !(jsTruthy teamName) || !(jsIsString teamName) then
    Except.error "Team name is required and must be a string"
  else if !(jsIsArray channelIds) || jsLen channelIds == 0 then
    Except.error "Channel IDs must be a non-empty array"
  else
    Except.ok (ClientInit.mk (jsStr token) (jsStr teamName) (jsList channelIds))

/-- One stored team record, as validated and stored by
`TeamManager.initialize`. -/
structure TeamCfg where
  name : String
  appToken : String
  botToken : String
  channelIds : List String
deriving DecidableEq, Repr

/-- Embedding of the constructor call in `TeamManager._connectTeam`
(src/src/team/SlackClient.js lines 1076-1113): the four JS arguments
`(appToken, botToken, teamName, channelIds)` bind to the three constructor
parameters `(token, teamName, channelIds)`; the `channelIds` argument is
dropped. -/
def connectTeam (t : TeamCfg) : Except String ClientInit :=
  slackClientCtor (JsVal.str t.appToken) (JsVal.str t.botToken) (JsVal.str t.name)

/-- Embedding of `TeamManager.connectAllTeams` (the `Promise.allSettled`
tally and the zero-success check). -/
def connectAllTeams (teams : List TeamCfg) : Except String Nat :=
  let results := teams.map connectTeam
  let successfulConnections :=
    (results.filter (fun r => match r with | .ok _ => true | .error _ => false)).length
  if successfulConnections = 0 then
    Except.error "Failed to connect to any teams"
  else
    Except.ok successfulConnections

/-- C2: for every team whose configuration passed `initialize` validation
(both tokens are non-empty strings), the constructor call in `_connectTeam`
binds the team name to the `channelIds` parameter and throws
"Channel IDs must be a non-empty array"; consequently `connectAllTeams`
always throws "Failed to connect to any teams". -/
theorem connectTeam_arity_mismatch (teams : List TeamCfg)
    (hval : ∀ t ∈ teams, t.appToken ≠ "" ∧ t.botToken ≠ "") :
    (∀ t ∈ teams, connectTeam t = Except.error "Channel IDs must be a non-empty array")
    ∧ connectAllTeams teams = Except.error "Failed to connect to any teams" := by
  have hone : ∀ t ∈ teams,
      connectTeam t = Except.error "Channel IDs must be a non-empty array" := by
    intro t ht
    obtain ⟨ha, hb⟩ := hval t ht
    have ha2 : t.appToken.isEmpty = false := by
      cases h : t.appToken.isEmpty
      · rfl
      · exact absurd ((String.isEmpty_iff _).mp h) ha
    have hb2 : t.botToken.isEmpty = false := by
      cases h : t.botToken.isEmpty
      · rfl
      · exact absurd ((String.isEmpty_iff _).mp h) hb
    simp [connectTeam, slackClientCtor, jsTruthy, jsIsString, jsIsArray, ha2, hb2]
  refine ⟨hone, ?_⟩
  have hall : teams.map connectTeam =
      teams.map (fun _ => Except.error "Channel IDs must be a non-empty array") := by
    apply List.map_congr_left
    intro t ht
    exact hone t ht
  simp [connectAllTeams, hall]

/-- Witness for C2: a concrete validly-configured team fails with the
channel-IDs error and the fleet connect fails as a whole. -/
theorem connectTeam_arity_mismatch_witness :
    connectTeam (TeamCfg.mk "acme" "xapp-1-A" "xoxb-B" ["C1234567890"])
      = Except.error "Channel IDs must be a non-empty array"
    ∧ connectAllTeams [TeamCfg.mk "acme" "xapp-1-A" "xoxb-B" ["C1234567890"]]
      = Except.error "Failed to connect to any teams" := by
  have h := connectTeam_arity_mismatch
    [TeamCfg.mk "acme" "xapp-1-A" "xoxb-B" ["C1234567890"]]
    (by intro t ht; simp at ht; subst ht; exact ⟨by decide, by decide⟩)
  exact ⟨h.1 _ (by simp), h.2⟩


/-! ### Claim C3: channel subscription, skip reasons, NoValidChannels -/

/-- The `conversations.info` API response as inspected by
`subscribeToChannels`: the `ok` flag, the channel object (modelled by its
`name` when present) and the API `error` code. -/
structure ApiChannelResult where
  ok : Bool
  channel : Option String
  apiErr : Option String
deriving DecidableEq, Repr

/-- Outcome of one `webClient.conversations.info` call: a returned result or
a thrown transport error. -/
inductive ConvInfoOutcome where
  | result (r : ApiChannelResult)
  | thrown (e : JsError)
deriving DecidableEq, Repr

/-- Embedding of `SlackClient.isValidChannelIdFormat`:
`/^C[A-Z0-9]{10}$/` plus the falsy/non-string guard. -/
def isValidChannelIdFormat (channelId : String) : Bool :=
  match channelId.data with
  | [] => false
  | c :: rest =>
      c == 'C' && rest.length == 10 &&
      rest.all (fun ch => ('A' ≤ ch && ch ≤ 'Z') || ('0' ≤ ch && ch ≤ '9'))

/-- JS template interpolation of a possibly-undefined string value. -/
def jsInterpolate : Option String → String
  | some s => s
  | none => "undefined"

/-- Embedding of `SlackClient._getChannelErrorReason` (API response path).
The JS `switch` on `result.error` becomes an if-chain; its default
interpolates the (possibly undefined) error code. -/
def getChannelErrorReason (r : ApiChannelResult) : String :=
  if r.ok = false then
    if r.apiErr == some "channel_not_found" then "channel not found"
    else if r.apiErr == some "not_in_channel" then "bot not in channel"
    else if r.apiErr == some "access_denied" then "access denied"
    else if r.apiErr == some "invalid_channel" then "invalid channel ID"
    else "API error: " ++ jsInterpolate r.apiErr
  else "unknown error"

/-- Embedding of `SlackClient._getChannelErrorReasonFromException`
(thrown-error path; the `!error` guard never fires for a thrown error
value). -/
def getChannelErrorReasonFromException (e : JsError) : String :=
  let errorMessage := errMessageLower e
  if containsSub errorMessage "channel_not_found" || e.code == some "channel_not_found" then
    "channel not found"
  else if containsSub errorMessage "not_in_channel" || e.code == some "not_in_channel" then
    "bot not in channel"
  else if containsSub errorMessage "access_denied" || e.code == some "access_denied" then
    "access denied"
  else if containsSub errorMessage "invalid_channel" || e.code == some "invalid_channel" then
    "invalid channel ID"
  else if containsSub errorMessage "rate_limited" || e.code == some "rate_limited" then
    "rate limited"
  else if containsSub errorMessage "timeout" || containsSub errorMessage "econnreset" then
    "network timeout"
  else if e.status == some 403 then
    "permission denied"
  else if e.status == some 404 then
    "channel not found"
  else
    "access error"

/-- One record of `this.skippedChannels`:
`{ channelId, reason }` or `{ channelId, reason, error: error.message }`. -/
structure SkippedChannel where
  channelId : String
  reason : String
  rawError : Option String
deriving DecidableEq, Repr

/-- The state built by the subscription loop: `validChannelIds`,
the `channelNames` cache and `this.skippedChannels`. -/
structure SubscribeAcc where
  validChannelIds : List String
  channelNames : List (String × String)
  skippedChannels : List SkippedChannel
deriving DecidableEq, Repr

/-- Embedding of the `for (const channelId of this.channelIds)` loop of
`subscribeToChannels` (src/src/team/SlackClient.js lines 417-470), written
as structural recursion: the head's contribution is prepended to the
results of the rest, which reproduces the in-order `push` calls. -/
def subscribeLoop (api : String → ConvInfoOutcome) : List String → SubscribeAcc
  | [] => SubscribeAcc.mk [] [] []
  | channelId :: rest =>
      let r := subscribeLoop api rest
      if !(isValidChannelIdFormat channelId) then
        { r with skippedChannels :=
            SkippedChannel.mk channelId "invalid channel ID format" none
              :: r.skippedChannels }
      else
        match api channelId with
        | .result res =>
            if res.ok && res.channel.isSome then
              { r with
                validChannelIds := channelId :: r.validChannelIds,
                channelNames := (channelId, res.channel.getD "") :: r.channelNames }
            else
              { r with skippedChannels :=
                  SkippedChannel.mk channelId (getChannelErrorReason res) none
                    :: r.skippedChannels }
        | .thrown e =>
            { r with skippedChannels :=
                (SkippedChannel.mk channelId (getChannelErrorReasonFromException e)
                  (some (e.message.getD "undefined"))) :: r.skippedChannels }

/-- The `NoValidChannels` error message with the skipped count. -/
def noValidChannelsMsg (skippedCount : Nat) : String :=
  "No valid channels available for subscription. Skipped "
    ++ toString skippedCount ++ " channels."

/-- Embedding of `SlackClient.subscribeToChannels` (the web client is
initialized on this path).  On success returns the surviving channel ids,
the name cache and the skipped list. -/
def subscribeToChannels (api : String → ConvInfoOutcome) (channelIds : List String) :
    Except String SubscribeAcc :=
  let acc := subscribeLoop api channelIds
  if acc.validChannelIds.isEmpty then
    Except.error (noValidChannelsMsg acc.skippedChannels.length)
  else
    Except.ok acc

/-- The spec's closed set of skip reasons. -/
inductive SkipReasonTag where
  | invalidFormat
  | notFound
  | notAMember
  | accessDenied
  | rateLimited
  | networkTimeout
  | permissionDenied
  | apiError
  | unknownReason
deriving DecidableEq, Repr

/-- `strStartsWith s pat` models a prefix test on strings (used only by the
spec-side classifier below). -/
def strStartsWith (s pat : String) : Bool :=
  startsWithList s.data pat.data

/-- Classification of the code's reason strings into the spec's closed set
(`none` for a string the code never produces).  The code's generic
`invalid channel ID` maps to `invalid-format` and its generic
`access error` / `unknown error` fallbacks to `unknown`. -/
def reasonTag (reason : String) : Option SkipReasonTag :=
  if strStartsWith reason "API error: " then some SkipReasonTag.apiError
  else if reason == "invalid channel ID format" then some SkipReasonTag.invalidFormat
  else if reason == "invalid channel ID" then some SkipReasonTag.invalidFormat
  else if reason == "channel not found" then some SkipReasonTag.notFound
  else if reason == "bot not in channel" then some SkipReasonTag.notAMember
  else if reason == "access denied" then some SkipReasonTag.accessDenied
  else if reason == "rate limited" then some SkipReasonTag.rateLimited
  else if reason == "network timeout" then some SkipReasonTag.networkTimeout
  else if reason == "permission denied" then some SkipReasonTag.permissionDenied
  else if reason == "unknown error" then some SkipReasonTag.unknownReason
  else if reason == "access error" then some SkipReasonTag.unknownReason
  else none

theorem startsWithList_append (p l : List Char) : startsWithList (p ++ l) p = true := by
  induction p with
  | nil =>
      cases l <;> rfl
  | cons c cs ih => simp [startsWithList, ih]

theorem strStartsWith_append (p t : String) : strStartsWith (p ++ t) p = true := by
  unfold strStartsWith
  rw [String.data_append]
  exact startsWithList_append p.data t.data

theorem reasonTag_apiError (s : String) :
    (reasonTag ("API error: " ++ s)).isSome = true := by
  unfold reasonTag
  rw [strStartsWith_append]
  rfl

theorem getChannelErrorReason_tagged (r : ApiChannelResult) :
    (reasonTag (getChannelErrorReason r)).isSome = true := by
  unfold getChannelErrorReason
  repeat' split
  all_goals first
    | decide
    | exact reasonTag_apiError (jsInterpolate r.apiErr)

theorem getChannelErrorReasonFromException_tagged (e : JsError) :
    (reasonTag (getChannelErrorReasonFromException e)).isSome = true := by
  unfold getChannelErrorReasonFromException
  dsimp only
  repeat' split
  all_goals decide


/-- Each configured channel either survives (prepended to the kept ids) or
contributes one skipped entry, whose reason classifies into the spec's
closed set. -/
theorem subscribeLoop_cons (api : String → ConvInfoOutcome) (id : String)
    (rest : List String) :
    ((subscribeLoop api (id :: rest)).skippedChannels
        = (subscribeLoop api rest).skippedChannels
      ∧ (subscribeLoop api (id :: rest)).validChannelIds
        = id :: (subscribeLoop api rest).validChannelIds)
    ∨ (∃ entry : SkippedChannel, (reasonTag entry.reason).isSome = true
        ∧ entry.channelId = id
        ∧ (subscribeLoop api (id :: rest)).skippedChannels
            = entry :: (subscribeLoop api rest).skippedChannels
        ∧ (subscribeLoop api (id :: rest)).validChannelIds
            = (subscribeLoop api rest).validChannelIds) := by
  by_cases hv : isValidChannelIdFormat id = true
  · cases hapi : api id with
    | result res =>
      by_cases hok : (res.ok && res.channel.isSome) = true
      · left
        constructor <;> simp [subscribeLoop, hv, hapi, hok]
      · right
        refine ⟨SkippedChannel.mk id (getChannelErrorReason res) none,
          getChannelErrorReason_tagged res, rfl, ?_, ?_⟩ <;>
          simp [subscribeLoop, hv, hapi, hok]
    | thrown e =>
      right
      refine ⟨SkippedChannel.mk id (getChannelErrorReasonFromException e)
          (some (e.message.getD "undefined")),
        getChannelErrorReasonFromException_tagged e, rfl, ?_, ?_⟩ <;>
        simp [subscribeLoop, hv, hapi]
  · right
    refine ⟨SkippedChannel.mk id "invalid channel ID format" none, ?_,
      rfl, ?_, ?_⟩
    · show (reasonTag "invalid channel ID format").isSome = true
      decide
    · simp [subscribeLoop, hv]
    · simp [subscribeLoop, hv]

theorem subscribeLoop_parts (api : String → ConvInfoOutcome)
    (channelIds : List String) :
    (∀ s ∈ (subscribeLoop api channelIds).skippedChannels,
      (reasonTag s.reason).isSome = true)
    ∧ ((subscribeLoop api channelIds).skippedChannels.map
        SkippedChannel.channelId).Sublist channelIds := by
  induction channelIds with
  | nil =>
    constructor
    · intro s hs
      simp [subscribeLoop] at hs
    · simp [subscribeLoop]
  | cons id rest ih =>
    obtain ⟨ih1, ih2⟩ := ih
    rcases subscribeLoop_cons api id rest with ⟨hsk, _⟩ | ⟨entry, htag, hid, hsk, _⟩
    · constructor
      · intro s hs
        rw [hsk] at hs
        exact ih1 s hs
      · rw [hsk]
        exact List.Sublist.cons id ih2
    · constructor
      · intro s hs
        rw [hsk] at hs
        rcases List.mem_cons.mp hs with h | h
        · rw [h]
          exact htag
        · exact ih1 s h
      · rw [hsk, List.map_cons, hid]
        exact List.Sublist.cons₂ id ih2

/-- C3: after the subscription loop every skipped entry's reason classifies
into the spec's closed set
invalid-format | not-found | not-a-member | access-denied | rate-limited |
network-timeout | permission-denied | api-error | unknown; the skipped
entries appear in configured input order (their channel ids form an
in-order sublist of the configured list); and when no channel survives,
`subscribeToChannels` raises the NoValidChannels error carrying the count
of skipped entries. -/
theorem subscribeToChannels_skip_contract (api : String → ConvInfoOutcome)
    (channelIds : List String) :
    (∀ s ∈ (subscribeLoop api channelIds).skippedChannels,
      (reasonTag s.reason).isSome = true)
    ∧ ((subscribeLoop api channelIds).skippedChannels.map
        SkippedChannel.channelId).Sublist channelIds
    ∧ ((subscribeLoop api channelIds).validChannelIds = [] →
        subscribeToChannels api channelIds
          = Except.error
              (noValidChannelsMsg
                (subscribeLoop api channelIds).skippedChannels.length)) := by
  obtain ⟨h1, h2⟩ := subscribeLoop_parts api channelIds
  refine ⟨h1, h2, ?_⟩
  intro hnil
  simp [subscribeToChannels, hnil]

/-- Witness for C3 on a concrete run: a malformed id and a
`not_in_channel` rejection leave no surviving channel, the skipped ids keep
the configured order, each reason classifies, and the NoValidChannels error
reports 2 skipped entries. -/
theorem subscribeToChannels_skip_contract_witness :
    ((subscribeLoop
        (fun _ => ConvInfoOutcome.result
          (ApiChannelResult.mk false none (some "not_in_channel")))
        ["bad-id", "C0000000000"]).skippedChannels.map
      SkippedChannel.channelId).Sublist ["bad-id", "C0000000000"]
    ∧ (reasonTag (SkippedChannel.mk "bad-id" "invalid channel ID format"
        none).reason).isSome = true
    ∧ subscribeToChannels
        (fun _ => ConvInfoOutcome.result
          (ApiChannelResult.mk false none (some "not_in_channel")))
        ["bad-id", "C0000000000"]
        = Except.error (noValidChannelsMsg 2) := by
  obtain ⟨h1, h2, h3⟩ := subscribeToChannels_skip_contract
    (fun _ => ConvInfoOutcome.result
      (ApiChannelResult.mk false none (some "not_in_channel")))
    ["bad-id", "C0000000000"]
  refine ⟨h2, ?_, ?_⟩
  · exact h1 _ (by decide)
  · exact h3 (by decide)


/-! ### Messages and event demultiplexing (claims C10, C8, C5, C4, C6)

`Message` embeds the object built in `SlackClient.handleMessage`:
`{team, channel, channelId, user, text, timestamp, formattedTime}`.
`formattedTime` is the epoch-millisecond value of the JS `Date`
(`none` models an absent field, or an invalid date).  `text` is
`none` when a non-string value reaches a handler. -/

structure Message where
  team : String
  channel : String
  channelId : String
  user : String
  text : Option String
  timestamp : String
  formattedTime : Option Int
deriving DecidableEq, Repr

def digitsToNat (ds : List Char) : Nat :=
  ds.foldl (fun acc c => acc * 10 + (c.toNat - 48)) 0

/-- Modelled from the spec: the numeric parse of a platform timestamp,
`new Date(Number.parseFloat(ts) * 1000).getTime()`.  `parseFloat` and
`Date` are JS builtins outside the repository; the model handles plain
decimal timestamps (`digits` or `digits.digits`, the shape Slack emits,
truncated toward zero at millisecond precision) and returns `none`
(an undefined ordering key, NaN) for anything else. -/
def parseTsMillis (s : String) : Option Int :=
  let cs := s.data
  let ipart := cs.takeWhile Char.isDigit
  let rest := cs.dropWhile Char.isDigit
  if ipart.isEmpty then none
  else
    match rest with
    | [] => some (Int.ofNat (digitsToNat ipart * 1000))
    | c :: frac =>
        if c == '.' && frac.all Char.isDigit then
          some (Int.ofNat (digitsToNat ipart * 1000
            + digitsToNat ((frac ++ ['0', '0', '0']).take 3)))
        else none

/-- An inbound chat event as inspected by `handleMessage`. -/
structure SlackEvent where
  channel : String
  botId : Option String
  subtype : Option String
  user : Option String
  text : Option String
  ts : String
deriving DecidableEq, Repr

/-- JS truthiness of a possibly-absent string property. -/
def jsTruthyOpt : Option String → Bool
  | none => false
  | some s => !s.isEmpty

/-- JS `a || b` on strings (falls through on the empty string). -/
def jsOrStr (a b : String) : String :=
  if a.isEmpty then b else a

/-- The `users.info` response: the `ok` flag and the `user` object with its
`display_name`, `real_name` and `name` fields ("" models an absent or empty
field, which JS `||` treats alike). -/
structure ApiUserResult where
  ok : Bool
  displayName : String
  realName : String
  loginName : String
  hasUser : Bool
deriving DecidableEq, Repr

/-- Outcome of one `webClient.users.info` call. -/
inductive UsersInfoOutcome where
  | result (r : ApiUserResult)
  | thrown (e : JsError)
deriving DecidableEq, Repr

/-- Embedding of the user-name resolution block of
`SlackClient.handleMessage` (src/src/team/SlackClient.js lines 488-506). -/
def resolveUserName (hasWebClient : Bool)
    (userApi : String → UsersInfoOutcome) (user : Option String) : String :=
  match user with
  | none => "Unknown User"
  | some u =>
      if u.isEmpty || !hasWebClient then "Unknown User"
      else
        match userApi u with
        | .result r =>
            if r.ok && r.hasUser then
              jsOrStr r.displayName
                (jsOrStr r.realName (jsOrStr r.loginName "Unknown User"))
            else "Unknown User"
        | .thrown _ => u

/-- First-match lookup in the channel-name cache. -/
def lookupName : List (String × String) → String → Option String
  | [], _ => none
  | (k, v) :: rest, key => if k == key then some v else lookupName rest key

/-- Embedding of `SlackClient.handleMessage`: `none` when the event is
filtered out (foreign channel, bot message, subtyped message), otherwise
the constructed `Message` handed to the sink. -/
def handleMessage (teamName : String) (channelIds : List String)
    (channelNames : List (String × String)) (hasWebClient : Bool)
    (userApi : String → UsersInfoOutcome) (ev : SlackEvent) : Option Message :=
  if !(channelIds.contains ev.channel) then none
  else if jsTruthyOpt ev.botId || jsTruthyOpt ev.subtype then none
  else
    some
      { team := teamName
        channel :=
          match lookupName channelNames ev.channel with
          | some n => jsOrStr n ev.channel
          | none => ev.channel
        channelId := ev.channel
        user := resolveUserName hasWebClient userApi ev.user
        text := some (ev.text.getD "")
        timestamp := ev.ts
        formattedTime := parseTsMillis ev.ts }

/-- The author-name resolution as the amended claim C10 states it: prefer
display name, then real name, then login; a thrown lookup falls back to the
raw user id; an unsuccessful response (`ok` false or no user object), or all
name fields empty, yields the placeholder "Unknown User". -/
def specAuthorName (userApi : String → UsersInfoOutcome) (u : String) : String :=
  match userApi u with
  | .result r =>
      if r.ok && r.hasUser then
        if !r.displayName.isEmpty then r.displayName
        else if !r.realName.isEmpty then r.realName
        else if !r.loginName.isEmpty then r.loginName
        else "Unknown User"
      else "Unknown User"
  | .thrown _ => u

/-- Counterexample to C10 as stated: an event that passes all filters whose
user lookup fails at the API level (`ok: false`) produces the author name
"Unknown User", not the raw user identifier "U123" the claim requires on
"any failure of the lookup". -/
theorem handleMessage_author_claim_counterexample :
    (handleMessage "acme" ["C0000000000"] [] true
        (fun _ => UsersInfoOutcome.result (ApiUserResult.mk false "" "" "" false))
        (SlackEvent.mk "C0000000000" none none (some "U123") (some "hi") "1.0")).map
      Message.user = some "Unknown User"
    ∧ ("Unknown User" : String) ≠ "U123" := by
  constructor
  · rfl
  · decide

/-- C10 (amended): for every event passing the channel/bot/subtype filters
with a (truthy) user id and an initialized web client, the constructed
message's author name equals the spec-side resolution `specAuthorName`:
display name, then real name, then login; raw id only when the lookup
throws; "Unknown User" on an unsuccessful response or when all fields are
empty. -/
theorem handleMessage_author_amended (teamName : String) (channelIds : List String)
    (channelNames : List (String × String)) (userApi : String → UsersInfoOutcome)
    (ev : SlackEvent) (u : String)
    (hchan : channelIds.contains ev.channel = true)
    (hbot : jsTruthyOpt ev.botId = false)
    (hsub : jsTruthyOpt ev.subtype = false)
    (huser : ev.user = some u) (hune : u.isEmpty = false) :
    (handleMessage teamName channelIds channelNames true userApi ev).map Message.user
      = some (specAuthorName userApi u) := by
  have hres : resolveUserName true userApi ev.user = specAuthorName userApi u := by
    rw [huser]
    unfold resolveUserName specAuthorName
    dsimp only
    rw [hune]
    simp only [Bool.not_true, Bool.or_false, Bool.false_or, if_false]
    cases userApi u with
    | result r =>
        by_cases hok : (r.ok && r.hasUser) = true
        · simp only [hok, if_true, if_pos]
          unfold jsOrStr
          by_cases h1 : r.displayName.isEmpty <;>
            by_cases h2 : r.realName.isEmpty <;>
              by_cases h3 : r.loginName.isEmpty <;>
                simp [h1, h2, h3]
        · simp [hok]
    | thrown e => rfl
  unfold handleMessage
  rw [hchan, hbot, hsub]
  simp [hres]

/-- Witness for the amended C10: a thrown lookup yields the raw id, matching
`specAuthorName`. -/
theorem handleMessage_author_amended_witness :
    (handleMessage "acme" ["C0000000000"] [] true
        (fun _ => UsersInfoOutcome.thrown (JsError.mk (some "boom") none none))
        (SlackEvent.mk "C0000000000" none none (some "U123") (some "hi") "1.0")).map
      Message.user
      = some (specAuthorName
          (fun _ => UsersInfoOutcome.thrown (JsError.mk (some "boom") none none))
          "U123") :=
  handleMessage_author_amended "acme" ["C0000000000"] []
    (fun _ => UsersInfoOutcome.thrown (JsError.mk (some "boom") none none))
    (SlackEvent.mk "C0000000000" none none (some "U123") (some "hi") "1.0")
    "U123" (by decide) rfl rfl rfl (by decide)


/-! ### Claim C6: handler dispatch in `MessageProcessor.processMessage` -/

/-- A registered message handler: its `getName()`, its `isEnabled()` at
dispatch time, and the settled outcome of `handle(message)` (`.error`
models a rejected promise, which `processMessage` catches per handler). -/
structure Handler where
  getName : String
  isEnabled : Bool
  handle : Message → Except String Unit

/-- Embedding of `MessageProcessor.processMessage`
(src/src/message/MessageProcessor.js lines 61-73): snapshot the enabled
handlers, run `handle` on each with a per-handler catch, and await all.
The result is the dispatch trace: one `(handler name, settled outcome)`
entry per enabled handler; the function is total — the JS promise always
resolves because every rejection is caught. -/
def processMessage (handlers : List Handler) (m : Message) :
    List (String × Except String Unit) :=
  (handlers.filter (fun h => h.isEnabled)).map (fun h => (h.getName, h.handle m))

/-- C6: with registry names unique (a `Map` guarantees this), every enabled
handler is dispatched exactly once and observes `handle(m)` (its entry is in
the trace no matter what other handlers return), a disabled handler is
never dispatched, and the batch completes with one settled entry per
enabled handler even when some of them fail. -/
theorem processMessage_dispatch (handlers : List Handler) (m : Message)
    (h : Handler) (hmem : h ∈ handlers)
    (hnodup : (handlers.map Handler.getName).Nodup) :
    (h.isEnabled = true →
      ((processMessage handlers m).map Prod.fst).count h.getName = 1
      ∧ (h.getName, h.handle m) ∈ processMessage handlers m)
    ∧ (h.isEnabled = false →
      h.getName ∉ (processMessage handlers m).map Prod.fst)
    ∧ (processMessage handlers m).length
        = (handlers.filter (fun x => x.isEnabled)).length := by
  have htrace : (processMessage handlers m).map Prod.fst
      = (handlers.filter (fun x => x.isEnabled)).map Handler.getName := by
    unfold processMessage
    rw [List.map_map]
    rfl
  have hsub : List.Sublist
      ((handlers.filter (fun x => x.isEnabled)).map Handler.getName)
      (handlers.map Handler.getName) :=
    List.Sublist.map Handler.getName (List.filter_sublist handlers)
  have hnodup2 : ((handlers.filter (fun x => x.isEnabled)).map Handler.getName).Nodup :=
    List.Nodup.sublist hsub hnodup
  refine ⟨?_, ?_, ?_⟩
  · intro hen
    have hmemf : h ∈ handlers.filter (fun x => x.isEnabled) :=
      List.mem_filter.mpr ⟨hmem, by rw [hen]⟩
    constructor
    · rw [htrace]
      exact List.count_eq_one_of_mem hnodup2 (List.mem_map_of_mem Handler.getName hmemf)
    · exact List.mem_map_of_mem (fun x => (x.getName, x.handle m)) hmemf
  · intro hdis hin
    rw [htrace] at hin
    obtain ⟨h2, hmem2, hname⟩ := List.mem_map.mp hin
    obtain ⟨hmem2h, hen2⟩ := List.mem_filter.mp hmem2
    have heq : h2 = h :=
      List.inj_on_of_nodup_map hnodup hmem2h hmem hname
    rw [heq] at hen2
    rw [hdis] at hen2
    simp at hen2
  · unfold processMessage
    exact List.length_map _ _

/-- Witness for C6: handlers A (enabled), B (disabled) and E (enabled,
rejecting) — A runs exactly once, B never runs, and both enabled handlers
settle. -/
theorem processMessage_dispatch_witness :
    ((processMessage
        [Handler.mk "A" true (fun _ => Except.ok ()),
         Handler.mk "B" false (fun _ => Except.ok ()),
         Handler.mk "E" true (fun _ => Except.error "boom")]
        (Message.mk "t" "c" "C1" "u" (some "hi") "1.0" (some 1000))).map
      Prod.fst).count "A" = 1
    ∧ "B" ∉ (processMessage
        [Handler.mk "A" true (fun _ => Except.ok ()),
         Handler.mk "B" false (fun _ => Except.ok ()),
         Handler.mk "E" true (fun _ => Except.error "boom")]
        (Message.mk "t" "c" "C1" "u" (some "hi") "1.0" (some 1000))).map Prod.fst
    ∧ (processMessage
        [Handler.mk "A" true (fun _ => Except.ok ()),
         Handler.mk "B" false (fun _ => Except.ok ()),
         Handler.mk "E" true (fun _ => Except.error "boom")]
        (Message.mk "t" "c" "C1" "u" (some "hi") "1.0" (some 1000))).length = 2 := by
  have hA := processMessage_dispatch
    [Handler.mk "A" true (fun _ => Except.ok ()),
     Handler.mk "B" false (fun _ => Except.ok ()),
     Handler.mk "E" true (fun _ => Except.error "boom")]
    (Message.mk "t" "c" "C1" "u" (some "hi") "1.0" (some 1000))
    (Handler.mk "A" true (fun _ => Except.ok ()))
    (by simp) (by simp)
  have hB := processMessage_dispatch
    [Handler.mk "A" true (fun _ => Except.ok ()),
     Handler.mk "B" false (fun _ => Except.ok ()),
     Handler.mk "E" true (fun _ => Except.error "boom")]
    (Message.mk "t" "c" "C1" "u" (some "hi") "1.0" (some 1000))
    (Handler.mk "B" false (fun _ => Except.ok ()))
    (by simp) (by simp)
  exact ⟨(hA.1 rfl).1, hB.2.1 rfl, hA.2.2⟩


/-! ### Claim C8: `MessageProcessor.sortByTimestamp` -/

/-- The ordering key the comparator reads from a message:
`a.formattedTime || new Date(Number.parseFloat(a.timestamp) * 1000)`,
as an epoch-millisecond value; `none` models NaN (no numeric key). -/
def keyOf (m : Message) : Option Int :=
  match m.formattedTime with
  | some t => some t
  | none => parseTsMillis m.timestamp

/-- The key as an integer, defined when `keyOf` is `some`. -/
def keyVal (m : Message) : Int :=
  (keyOf m).getD 0

/-- The JS comparator `timeA.getTime() - timeB.getTime()`; per the
ECMAScript SortCompare clause a NaN comparator result counts as +0. -/
def cmpMsg (a b : Message) : Int :=
  match keyOf a, keyOf b with
  | some x, some y => x - y
  | _, _ => 0

/-- "`a` sorts no later than `b`" under the comparator. -/
def msgLe (a b : Message) : Prop := cmpMsg a b ≤ 0

instance : DecidableRel msgLe := fun a b => Int.decLe (cmpMsg a b) 0

/-- The ascending-key ordering the claim asserts of the output. -/
def msgKeyLe (a b : Message) : Prop := keyVal a ≤ keyVal b

/-- Embedding of `MessageProcessor.sortByTimestamp`
(src/src/message/MessageProcessor.js lines 96-108): non-array input returns
the empty list, otherwise a copy of the input is sorted with the comparator
(`Array.prototype.sort` with a consistent comparator produces a stable
sorted permutation, modelled by insertion sort); the embedding is pure, so
the input list is unchanged by construction. -/
def sortByTimestamp : Option (List Message) → List Message
  | none => []
  | some messages => List.insertionSort msgLe messages

theorem msgLe_keys {a b : Message} (ha : (keyOf a).isSome = true)
    (hb : (keyOf b).isSome = true) : msgLe a b ↔ keyVal a ≤ keyVal b := by
  obtain ⟨x, hx⟩ := Option.isSome_iff_exists.mp ha
  obtain ⟨y, hy⟩ := Option.isSome_iff_exists.mp hb
  unfold msgLe cmpMsg keyVal
  rw [hx, hy]
  simp only [Option.getD_some]
  omega

theorem pairwise_orderedInsert_key (a : Message) (t : List Message)
    (ha : (keyOf a).isSome = true) (ht : ∀ x ∈ t, (keyOf x).isSome = true)
    (hp : t.Pairwise msgKeyLe) :
    (List.orderedInsert msgLe a t).Pairwise msgKeyLe := by
  induction t with
  | nil =>
    simp [List.orderedInsert]
  | cons b t ih =>
    rw [List.orderedInsert]
    obtain ⟨hbt, hpt⟩ := List.pairwise_cons.mp hp
    have hb := ht b (List.mem_cons_self b t)
    by_cases hab : msgLe a b
    · rw [if_pos hab]
      have hkab : keyVal a ≤ keyVal b := (msgLe_keys ha hb).mp hab
      refine List.pairwise_cons.mpr ⟨?_, hp⟩
      intro x hx
      rcases List.mem_cons.mp hx with hxb | hxt
      · rw [hxb]
        exact hkab
      · exact le_trans hkab (hbt x hxt)
    · rw [if_neg hab]
      have hkba : keyVal b ≤ keyVal a := by
        have hnot := (msgLe_keys ha hb).not.mp hab
        omega
      refine List.pairwise_cons.mpr ⟨?_, ?_⟩
      · intro x hx
        rcases (List.mem_orderedInsert msgLe).mp hx with hxa | hxt
        · rw [hxa]
          exact hkba
        · exact hbt x hxt
      · exact ih (fun x hx => ht x (List.mem_cons_of_mem b hx)) hpt

theorem pairwise_insertionSort_key (l : List Message)
    (hl : ∀ x ∈ l, (keyOf x).isSome = true) :
    (List.insertionSort msgLe l).Pairwise msgKeyLe := by
  induction l with
  | nil => simp
  | cons a t ih =>
    rw [List.insertionSort]
    apply pairwise_orderedInsert_key
    · exact hl a (List.mem_cons_self a t)
    · intro x hx
      have hxt : x ∈ t := (List.perm_insertionSort msgLe t).mem_iff.mp hx
      exact hl x (List.mem_cons_of_mem a hxt)
    · exact ih (fun x hx => hl x (List.mem_cons_of_mem a hx))

/-- C8: `sortByTimestamp` returns the empty list on non-sequence input; on a
list it returns a permutation of the input (the input itself is untouched —
the embedding sorts a copy, as `[...messages]` does) ordered ascending by
`wallTime` (`formattedTime`) when present, else by the numeric parse of the
platform timestamp, whenever those keys are defined (non-NaN). -/
theorem sortByTimestamp_contract (x : Option (List Message)) :
    (x = none → sortByTimestamp x = [])
    ∧ (∀ l, x = some l →
        List.Perm (sortByTimestamp x) l
        ∧ ((∀ m ∈ l, (keyOf m).isSome = true) →
            (sortByTimestamp x).Pairwise msgKeyLe)) := by
  constructor
  · intro h
    rw [h]
    rfl
  · intro l h
    rw [h]
    exact ⟨List.perm_insertionSort msgLe l,
      fun hk => pairwise_insertionSort_key l hk⟩

/-- Witness for C8: `none` maps to `[]`, and a concrete two-element list
(later message first) is returned as an ascending permutation. -/
theorem sortByTimestamp_contract_witness :
    sortByTimestamp none = []
    ∧ List.Perm
        (sortByTimestamp (some
          [Message.mk "t" "c" "C1" "u" (some "b") "2.0" (some 2000),
           Message.mk "t" "c" "C1" "u" (some "a") "1.0" (some 1000)]))
        [Message.mk "t" "c" "C1" "u" (some "b") "2.0" (some 2000),
         Message.mk "t" "c" "C1" "u" (some "a") "1.0" (some 1000)]
    ∧ (sortByTimestamp (some
        [Message.mk "t" "c" "C1" "u" (some "b") "2.0" (some 2000),
         Message.mk "t" "c" "C1" "u" (some "a") "1.0" (some 1000)])).Pairwise
        msgKeyLe := by
  have h0 := (sortByTimestamp_contract none).1 rfl
  have h := (sortByTimestamp_contract (some
    [Message.mk "t" "c" "C1" "u" (some "b") "2.0" (some 2000),
     Message.mk "t" "c" "C1" "u" (some "a") "1.0" (some 1000)])).2
    [Message.mk "t" "c" "C1" "u" (some "b") "2.0" (some 2000),
     Message.mk "t" "c" "C1" "u" (some "a") "1.0" (some 1000)] rfl
  exact ⟨h0, h.1, h.2 (by decide)⟩


/-! ### Highlight matcher state and `matchesAny` (claims C4, C7)

A compiled regex is modelled as its `test` predicate, which may also throw
(`Except.error`), so the renderer's catch block is observable. -/

structure HighlightState where
  keywords : List String
  compiledRegexes : List (String → Except String Bool)

/-- The `for (const regex of this.compiledRegexes)` loop of `matchesAny`:
short-circuit on the first match, propagate a thrown test. -/
def matchesAnyLoop : List (String → Except String Bool) → String → Except String Bool
  | [], _ => Except.ok false
  | r :: rs, s =>
      match r s with
      | Except.error e => Except.error e
      | Except.ok true => Except.ok true
      | Except.ok false => matchesAnyLoop rs s

/-- Embedding of `HighlightConfig.matchesAny`
(src/src/config/HighlightConfig.js): non-string input returns false. -/
def matchesAny (hl : HighlightState) (text : Option String) : Except String Bool :=
  match text with
  | none => Except.ok false
  | some s => matchesAnyLoop hl.compiledRegexes s

/-! ### Console renderer (claims C4, C5)

Embedding of the highlight-aware `ConsoleOutputHandler`
(src/unnamed/part_006). -/

/-- `chalk.red.bold` wrapping: red-bold ANSI escapes around the line. -/
def chalkRedBold (s : String) : String :=
  "\x1b[31m\x1b[1m" ++ s ++ "\x1b[22m\x1b[39m"

/-- The control characters removed by `sanitizeText`:
`[\x00-\x08\x0B\x0C\x0E-\x1F\x7F]`. -/
def isRemovedControl (c : Char) : Bool :=
  (c.toNat ≤ 8) || c.toNat == 11 || c.toNat == 12
    || (14 ≤ c.toNat && c.toNat ≤ 31) || c.toNat == 127

/-- Embedding of `ConsoleOutputHandler.sanitizeText`: non-string text
becomes "", the control set is removed globally. -/
def sanitizeText (text : Option String) : String :=
  match text with
  | none => ""
  | some s => String.mk (s.data.filter (fun c => !(isRemovedControl c)))

/-- The JS `\s` class (WhiteSpace and LineTerminator code points). -/
def jsWhitespace (c : Char) : Bool :=
  c.toNat == 32 || c.toNat == 9 || c.toNat == 10 || c.toNat == 11
    || c.toNat == 12 || c.toNat == 13 || c.toNat == 160 || c.toNat == 0x1680
    || (0x2000 ≤ c.toNat && c.toNat ≤ 0x200a)
    || c.toNat == 0x2028 || c.toNat == 0x2029 || c.toNat == 0x202f
    || c.toNat == 0x205f || c.toNat == 0x3000 || c.toNat == 0xfeff

/-- Global replacement of `\r?\n` by one space (the regex scans left to
right, preferring the two-character match). -/
def replaceCrLf : List Char → List Char
  | [] => []
  | '\r' :: '\n' :: t => ' ' :: replaceCrLf t
  | '\n' :: t => ' ' :: replaceCrLf t
  | c :: t => c :: replaceCrLf t

/-- Global replacement of `\s+` runs by one space: a whitespace character
followed by more whitespace is dropped, the last character of a run becomes
the single space. -/
def collapseWs : List Char → List Char
  | [] => []
  | [c] => if jsWhitespace c then [' '] else [c]
  | c :: c2 :: rest =>
      if jsWhitespace c then
        if jsWhitespace c2 then collapseWs (c2 :: rest)
        else ' ' :: collapseWs (c2 :: rest)
      else c :: collapseWs (c2 :: rest)

/-- `String.prototype.trim` (strips the same whitespace class from both
ends). -/
def trimWs (l : List Char) : List Char :=
  ((l.dropWhile jsWhitespace).reverse.dropWhile jsWhitespace).reverse

/-- Embedding of `ConsoleOutputHandler.replaceNewlines` on the (always
string-valued) sanitized text:
`text.replace(/\r?\n/g, ' ').replace(/\s+/g, ' ').trim()`. -/
def replaceNewlinesStr (s : String) : String :=
  String.mk (trimWs (collapseWs (replaceCrLf s.data)))

/-- Embedding of `ConsoleOutputHandler.applyHighlight`
(src/unnamed/part_006 lines 59-74). -/
def applyHighlight (highlightConfig : Option HighlightState)
    (formattedMessage : String) (originalText : Option String) : String :=
  match highlightConfig with
  | none => formattedMessage
  | some cfg =>
      if !(jsTruthyOpt originalText) then formattedMessage
      else
        match matchesAny cfg originalText with
        | Except.ok true => chalkRedBold formattedMessage
        | Except.ok false => formattedMessage
        | Except.error _ => formattedMessage

/-- Embedding of `ConsoleOutputHandler.formatForOutput`
(src/unnamed/part_006 lines 45-51): sanitize, collapse, format the line,
then apply highlighting against the original `message.text`. -/
def formatForOutput (highlightConfig : Option HighlightState) (m : Message) : String :=
  let sanitizedText := sanitizeText m.text
  let textWithoutNewlines := replaceNewlinesStr sanitizedText
  let formattedMessage :=
    m.team ++ "/" ++ m.channel ++ "/" ++ m.user ++ " > " ++ textWithoutNewlines
  applyHighlight highlightConfig formattedMessage m.text

/-- The byte set named by claim C5:
0x00-0x08, 0x0B, 0x0C, 0x0E-0x1F, 0x7F. -/
def specRemoved (n : Nat) : Prop :=
  n ≤ 8 ∨ n = 11 ∨ n = 12 ∨ (14 ≤ n ∧ n ≤ 31) ∨ n = 127

instance specRemovedDec (n : Nat) : Decidable (specRemoved n) := by
  unfold specRemoved
  exact inferInstance

/-- The text transformation exactly as claim C5 words it: remove the named
byte set, replace each `\r?\n` by one space, collapse whitespace runs to a
single space, trim both ends; non-string text is the empty string. -/
def specCleanText : Option String → String
  | none => ""
  | some s =>
      String.mk (trimWs (collapseWs (replaceCrLf
        (s.data.filter (fun c => !(decide (specRemoved c.toNat)))))))

theorem spec_removed_iff (c : Char) :
    specRemoved c.toNat ↔ isRemovedControl c = true := by
  unfold specRemoved isRemovedControl
  simp only [Bool.or_eq_true, beq_iff_eq, Bool.and_eq_true, decide_eq_true_eq]
  omega

theorem spec_removed_decide (c : Char) :
    decide (specRemoved c.toNat) = isRemovedControl c := by
  by_cases hp : specRemoved c.toNat
  · simp [hp, (spec_removed_iff c).mp hp]
  · have h2 : ¬(isRemovedControl c = true) := fun h => hp ((spec_removed_iff c).mpr h)
    simp [hp, Bool.eq_false_iff.mpr h2]

/-- C5: with no highlight matcher supplied, the console renderer emits
exactly `{team}/{channel}/{user} > {cleaned text}`, where the cleaned text
is the claim's transformation (control bytes removed, `\r?\n` to one space,
whitespace runs collapsed, ends trimmed, non-string text as ""). -/
theorem formatForOutput_plain_line (m : Message) :
    formatForOutput none m
      = m.team ++ "/" ++ m.channel ++ "/" ++ m.user ++ " > " ++ specCleanText m.text := by
  unfold formatForOutput applyHighlight
  dsimp only
  congr 1
  cases htext : m.text with
  | none => rfl
  | some s =>
      unfold sanitizeText replaceNewlinesStr specCleanText
      have hfilter : (fun c => !(decide (specRemoved c.toNat)))
          = (fun c => !(isRemovedControl c)) := by
        funext c
        rw [spec_removed_decide]
      rw [hfilter]

/-- Counterexample to C4 as stated: a matcher whose pattern (such as
`/x*/`, which matches the empty string — its compiled `test` is constantly
true) reports a match on the empty original text, yet the renderer emits
the line unwrapped, because `!originalText` is true for the empty string.
So "wrapped iff matchesAny(original) is true" fails. -/
theorem applyHighlight_claim_counterexample :
    matchesAny (HighlightState.mk ["/x*/"] [fun _ => Except.ok true]) (some "")
      = Except.ok true
    ∧ applyHighlight (some (HighlightState.mk ["/x*/"] [fun _ => Except.ok true]))
        "t/c/u > " (some "") = "t/c/u > "
    ∧ "t/c/u > " ≠ chalkRedBold "t/c/u > " := by
  refine ⟨rfl, rfl, ?_⟩
  decide

/-- Whether a matcher call settled as a positive match. -/
def isOkTrue : Except String Bool → Bool
  | Except.ok true => true
  | Except.ok false => false
  | Except.error _ => false

/-- C4 (amended): with a matcher supplied, the rendered line is wrapped in
red-bold escapes iff the original text is truthy (a non-empty string) and
`matchesAny` on that original untransformed text returns true; on a thrown
matcher the line is emitted unwrapped; and `formatForOutput` passes the
original `message.text`, not the collapsed form, to the matcher. -/
theorem applyHighlight_amended (cfg : HighlightState) (line : String)
    (text : Option String) :
    (applyHighlight (some cfg) line text
      = if jsTruthyOpt text && isOkTrue (matchesAny cfg text)
        then chalkRedBold line else line)
    ∧ (∀ m : Message, formatForOutput (some cfg) m
        = applyHighlight (some cfg)
            (m.team ++ "/" ++ m.channel ++ "/" ++ m.user ++ " > "
              ++ replaceNewlinesStr (sanitizeText m.text)) m.text) := by
  constructor
  · unfold applyHighlight
    cases ht : jsTruthyOpt text with
    | false => simp [ht]
    | true =>
        simp only [ht, Bool.not_true, Bool.true_and, if_false]
        cases hm : matchesAny cfg text with
        | error e => simp [isOkTrue, hm]
        | ok b => cases b <;> simp [isOkTrue, hm]
  · intro m
    rfl


/-! ### Claim C7: `HighlightConfig` keyword management

`new RegExp(pattern, flags)` is a JS builtin: it is modelled by an explicit
`compile` oracle (`none` models a compile exception); every theorem below
holds for any oracle. -/

def gimuyFlag (c : Char) : Bool :=
  c == 'g' || c == 'i' || c == 'm' || c == 'u' || c == 'y'

/-- Split a character list at its last slash (the separator the greedy
`^\/(.+)\/([gimuy]*)$` match selects, since flags cannot contain a
slash). -/
def splitLastSlash : List Char → Option (List Char × List Char)
  | [] => none
  | c :: rest =>
      match splitLastSlash rest with
      | some (b, a) => some (c :: b, a)
      | none => if c == '/' then some ([], rest) else none

/-- The `regexStr.match(...)` shape check of
`HighlightConfig.parseRegexString`: leading slash, non-empty pattern,
trailing flags drawn from `gimuy`. -/
def parseRegexShape (s : String) : Option (String × String) :=
  match s.data with
  | '/' :: body =>
      match splitLastSlash body with
      | some (pat, flags) =>
          if pat.isEmpty || !(flags.all gimuyFlag) then none
          else some (String.mk pat, String.mk flags)
      | none => none
  | _ => none

/-- Embedding of `HighlightConfig.parseRegexString`
(src/src/config/HighlightConfig.js lines 85-103); the error strings stand
in for the Japanese originals, whose exact text no claim depends on. -/
def parseRegexString
    (compile : String → String → Option (String → Except String Bool))
    (regexStr : String) : Except String (String → Except String Bool) :=
  match parseRegexShape regexStr with
  | none => Except.error "regex must be in pattern-flags form"
  | some (pat, flags) =>
      match compile pat flags with
      | some r => Except.ok r
      | none => Except.error "regex compile failed"

/-- Embedding of `HighlightConfig.addKeyword` (lines 24-36): parse first,
push to both lists only on success; the JS method mutates `this`, so the
embedding returns the result together with the (possibly unchanged)
state. -/
def addKeyword (compile : String → String → Option (String → Except String Bool))
    (st : HighlightState) (pattern : String) :
    Except String Unit × HighlightState :=
  match parseRegexString compile pattern with
  | Except.error e => (Except.error ("invalid regex: " ++ e), st)
  | Except.ok r =>
      (Except.ok (),
        HighlightState.mk (st.keywords ++ [pattern]) (st.compiledRegexes ++ [r]))

/-- `Array.prototype.indexOf` (first occurrence; `none` models -1). -/
def jsIndexOf : List String → String → Option Nat
  | [], _ => none
  | k :: ks, pattern =>
      if k == pattern then some 0 else (jsIndexOf ks pattern).map (fun i => i + 1)

/-- `Array.prototype.splice(i, 1)`: remove the element at index `i`. -/
def spliceOne {α : Type} : List α → Nat → List α
  | [], _ => []
  | _ :: xs, 0 => xs
  | x :: xs, i + 1 => x :: spliceOne xs i

/-- Embedding of `HighlightConfig.removeKeyword` (lines 43-51). -/
def removeKeyword (st : HighlightState) (pattern : String) :
    Bool × HighlightState :=
  match jsIndexOf st.keywords pattern with
  | some i =>
      (true, HighlightState.mk (spliceOne st.keywords i)
        (spliceOne st.compiledRegexes i))
  | none => (false, st)

/-- The constructor loop: `for (const keyword of keywords) this.addKeyword(keyword)`;
the first failure aborts construction. -/
def initKeywordsLoop
    (compile : String → String → Option (String → Except String Bool))
    (st : HighlightState) : List String → Except String HighlightState
  | [] => Except.ok st
  | k :: ks =>
      match addKeyword compile st k with
      | (Except.ok _, st2) => initKeywordsLoop compile st2 ks
      | (Except.error e, _) => Except.error e

/-- Embedding of `new HighlightConfig(keywords)`. -/
def highlightConfigNew
    (compile : String → String → Option (String → Except String Bool))
    (keywords : List String) : Except String HighlightState :=
  initKeywordsLoop compile (HighlightState.mk [] []) keywords

/-- The parallel-lists invariant of the spec. -/
def hlInv (st : HighlightState) : Prop :=
  st.keywords.length = st.compiledRegexes.length

theorem spliceOne_length {α : Type} (l : List α) (i : Nat) (h : i < l.length) :
    (spliceOne l i).length + 1 = l.length := by
  induction l generalizing i with
  | nil => simp at h
  | cons x xs ih =>
      cases i with
      | zero => simp [spliceOne]
      | succ j =>
          have hj : j < xs.length := by
            simpa using h
          simp only [spliceOne, List.length_cons]
          rw [← ih j hj]

theorem jsIndexOf_lt (l : List String) (p : String) (i : Nat)
    (h : jsIndexOf l p = some i) : i < l.length := by
  induction l generalizing i with
  | nil => simp [jsIndexOf] at h
  | cons k ks ih =>
      unfold jsIndexOf at h
      by_cases hk : (k == p) = true
      · rw [if_pos hk] at h
        cases h
        simp
      · rw [if_neg hk] at h
        cases hij : jsIndexOf ks p with
        | none => rw [hij] at h; simp at h
        | some j =>
            rw [hij] at h
            simp at h
            have hjl := ih j hij
            simp only [List.length_cons]
            omega

theorem addKeyword_inv
    (compile : String → String → Option (String → Except String Bool))
    (st : HighlightState) (p : String) (h : hlInv st) :
    hlInv (addKeyword compile st p).2 := by
  unfold addKeyword
  cases hp : parseRegexString compile p with
  | error e => exact h
  | ok r =>
      unfold hlInv at h ⊢
      simp [h]

theorem removeKeyword_inv (st : HighlightState) (q : String) (h : hlInv st) :
    hlInv (removeKeyword st q).2 := by
  unfold removeKeyword
  cases hq : jsIndexOf st.keywords q with
  | none => exact h
  | some i =>
      have hik : i < st.keywords.length := jsIndexOf_lt _ _ _ hq
      have hir : i < st.compiledRegexes.length := by
        unfold hlInv at h
        omega
      unfold hlInv at h ⊢
      have h1 := spliceOne_length st.keywords i hik
      have h2 := spliceOne_length st.compiledRegexes i hir
      simp only
      omega

theorem initKeywordsLoop_inv
    (compile : String → String → Option (String → Except String Bool))
    (ks : List String) : ∀ st st2, hlInv st →
    initKeywordsLoop compile st ks = Except.ok st2 → hlInv st2 := by
  induction ks with
  | nil =>
      intro st st2 h heq
      unfold initKeywordsLoop at heq
      cases heq
      exact h
  | cons k ks ih =>
      intro st st2 h heq
      unfold initKeywordsLoop at heq
      have hinv2 := addKeyword_inv compile st k h
      cases hadd : addKeyword compile st k with
      | mk res stNext =>
          rw [hadd] at heq hinv2
          cases res with
          | ok u => exact ih stNext st2 hinv2 heq
          | error e => simp at heq

/-- C7: `addKeyword` either succeeds and appends the spec to the source
list with one new compiled predicate appended to the compiled list, or
fails leaving the state (hence `getKeywords()`) unchanged; and
construction, `addKeyword` and `removeKeyword` all preserve the
equal-length parallel-lists invariant — for every regex-compile oracle. -/
theorem highlight_atomicity
    (compile : String → String → Option (String → Except String Bool))
    (st : HighlightState) (p : String) (hinv : hlInv st) :
    (∀ u st2, addKeyword compile st p = (Except.ok u, st2) →
      st2.keywords = st.keywords ++ [p]
      ∧ ∃ r, st2.compiledRegexes = st.compiledRegexes ++ [r])
    ∧ (∀ e st2, addKeyword compile st p = (Except.error e, st2) →
      st2 = st ∧ st2.keywords = st.keywords)
    ∧ hlInv (addKeyword compile st p).2
    ∧ (∀ q, hlInv (removeKeyword st q).2)
    ∧ (∀ ks st2, highlightConfigNew compile ks = Except.ok st2 → hlInv st2) := by
  refine ⟨?_, ?_, addKeyword_inv compile st p hinv,
    fun q => removeKeyword_inv st q hinv, ?_⟩
  · intro u st2 heq
    unfold addKeyword at heq
    cases hp : parseRegexString compile p with
    | error e =>
        rw [hp] at heq
        simp at heq
    | ok r =>
        rw [hp] at heq
        simp only [Prod.mk.injEq] at heq
        refine ⟨?_, r, ?_⟩
        · rw [← heq.2]
        · rw [← heq.2]
  · intro e st2 heq
    unfold addKeyword at heq
    cases hp : parseRegexString compile p with
    | error e0 =>
        rw [hp] at heq
        simp only [Prod.mk.injEq] at heq
        constructor
        · rw [← heq.2]
        · rw [← heq.2]
    | ok r =>
        rw [hp] at heq
        simp at heq
  · intro ks st2 heq
    exact initKeywordsLoop_inv compile ks (HighlightState.mk [] []) st2 rfl heq

/-- Witness for C7: with an always-succeeding compile oracle, adding
"/err/i" to an empty config appends it; adding the malformed "abc" leaves
the keywords unchanged; the invariant holds after the successful add. -/
theorem highlight_atomicity_witness :
    (addKeyword (fun _ _ => some (fun _ => Except.ok false))
      (HighlightState.mk [] []) "/err/i").2.keywords = ["/err/i"]
    ∧ (addKeyword (fun _ _ => some (fun _ => Except.ok false))
      (HighlightState.mk [] []) "abc").2.keywords = []
    ∧ hlInv (addKeyword (fun _ _ => some (fun _ => Except.ok false))
      (HighlightState.mk [] []) "/err/i").2 := by
  have h := highlight_atomicity (fun _ _ => some (fun _ => Except.ok false))
    (HighlightState.mk [] []) "/err/i" rfl
  have h2 := highlight_atomicity (fun _ _ => some (fun _ => Except.ok false))
    (HighlightState.mk [] []) "abc" rfl
  refine ⟨(h.1 () _ rfl).1, ?_, h.2.2.1⟩
  exact (h2.2.1 "invalid regex: regex must be in pattern-flags form" _ rfl).2

end Slagg
